import Mathlib

/-!
Verification of the QR registration app (`app/(tabs)/records.tsx`: a React
Native scanner/records screen plus the bundled web `app.js` port).

The development shallowly embeds the core logic of the source:
* a time model (epoch milliseconds ↔ proleptic-Gregorian civil date-time,
  an ISO-8601 parser/printer modelling the JavaScript `Date` host
  functions, with the host's local timezone modelled as a constant offset
  in minutes, positive west of UTC, exactly as `Date.getTimezoneOffset`
  reports it);
* the two timestamp formatters (`formatDisplayTime`, `formatCSVTime`) in
  their native and web variants — the web variants propagate NaN as the
  source does, which we model with `Option Int`;
* the store operations: native `handleRegister`/`saveRecord`,
  `saveEdit`, `deleteRecord`, `loadRecords` sorting, CSV building, and
  the web `handleFormSubmission`/`editRecord` over the keyed IndexedDB
  store.
-/

namespace SaharaQr

/-! ## Civil date-time arithmetic

`civilFromDays`/`daysFromCivil` are the standard proleptic-Gregorian
conversions between a day count from 1970-01-01 and a (year, month, day)
triple; they model what the JavaScript `Date` getters/constructor compute.
-/

def civilFromDays (z0 : Int) : Int × Int × Int :=
  let z := z0 + 719468
  let era := z / 146097
  let doe := z - era * 146097
  let yoe := (doe - doe / 1460 + doe / 36524 - doe / 146096) / 365
  let y := yoe + era * 400
  let doy := doe - (365 * yoe + yoe / 4 - yoe / 100)
  let mp := (5 * doy + 2) / 153
  let d := doy - (153 * mp + 2) / 5 + 1
  let m := mp + (if mp < 10 then 3 else -9)
  (y + (if m ≤ 2 then 1 else 0), m, d)

def daysFromCivil (y0 m d : Int) : Int :=
  let y := y0 - (if m ≤ 2 then 1 else 0)
  let era := y / 400
  let yoe := y - era * 400
  let doy := (153 * (m + (if 2 < m then -3 else 9)) + 2) / 5 + d - 1
  let doe := yoe * 365 + yoe / 4 - yoe / 100 + doy
  era * 146097 + doe - 719468

/-- Civil (wall-clock) decomposition of an instant. -/
structure Civil where
  year : Int
  month : Int
  day : Int
  hour : Int
  minute : Int
  second : Int
  millis : Int
deriving DecidableEq, Repr

/-- Decompose epoch milliseconds into a UTC civil date-time (what the
JavaScript `Date` UTC getters return). -/
def msToCivil (ms : Int) : Civil :=
  let dt := civilFromDays (ms / 86400000)
  let r := ms % 86400000
  { year := dt.1
    month := dt.2.1
    day := dt.2.2
    hour := r / 3600000
    minute := r / 60000 % 60
    second := r / 1000 % 60
    millis := r % 1000 }

/-- Model of the JavaScript local-time getters (`getHours`, `getMonth`, …)
on a host whose (constant) timezone offset is `off` minutes, with the sign
convention of `Date.getTimezoneOffset` (UTC − local). -/
def localCivil (off ms : Int) : Civil := msToCivil (ms - off * 60000)

/-! ## String helpers modelling the JavaScript host functions -/

/-- Model of `String.prototype.padStart(w, c)`. -/
def padStartStr (w : Nat) (c : Char) (s : String) : String :=
  String.mk (List.replicate (w - s.length) c) ++ s

/-- Render an integer and zero-pad it to `w` digits, as the source does
with `n.toString().padStart(w, '0')`. -/
def padNum (w : Nat) (n : Int) : String := padStartStr w '0' (toString n)

/-- Model of the JavaScript whitespace class used by
`String.prototype.trim`. -/
def jsWhitespace (c : Char) : Bool := c.isWhitespace

/-- Model of `String.prototype.trim`: remove whitespace from both ends. -/
def jsTrim (s : String) : String :=
  String.mk ((s.data.rdropWhile jsWhitespace).dropWhile jsWhitespace)

/-- Model of `.replace(/"/g, '""')`: double every double-quote. -/
def jsEscQuotes (s : String) : String :=
  String.mk (s.data.foldr (fun c acc => if c = '"' then '"' :: '"' :: acc else c :: acc) [])

/-! ## ISO-8601 parsing and printing (model of `new Date(string)` on the
strings this app stores, and of `Date.prototype.toISOString`) -/

def digitsToInt (l : List Char) : Int :=
  l.foldl (fun acc c => acc * 10 + ((c.toNat : Int) - 48)) 0

/-- Validate the parsed fields and build the epoch-milliseconds value.
Day-in-month validity is checked by a round-trip through the civil
conversions. -/
def mkEpoch (y mo d h mi s ms : Int) : Option Int :=
  if 1 ≤ mo ∧ mo ≤ 12 ∧ 1 ≤ d ∧ d ≤ 31 ∧ 0 ≤ h ∧ h ≤ 23 ∧ 0 ≤ mi ∧ mi ≤ 59 ∧
      0 ≤ s ∧ s ≤ 59 ∧ 0 ≤ ms ∧ ms ≤ 999 ∧ civilFromDays (daysFromCivil y mo d) = (y, mo, d) then
    some (daysFromCivil y mo d * 86400000 + h * 3600000 + mi * 60000 + s * 1000 + ms)
  else none

def isoParseChars : List Char → Option Int
  | [y1, y2, y3, y4, '-', m1, m2, '-', d1, d2, 'T', h1, h2, ':', i1, i2, ':', s1, s2, 'Z'] =>
    if ([y1, y2, y3, y4, m1, m2, d1, d2, h1, h2, i1, i2, s1, s2].all Char.isDigit) then
      mkEpoch (digitsToInt [y1, y2, y3, y4]) (digitsToInt [m1, m2]) (digitsToInt [d1, d2])
        (digitsToInt [h1, h2]) (digitsToInt [i1, i2]) (digitsToInt [s1, s2]) 0
    else none
  | [y1, y2, y3, y4, '-', m1, m2, '-', d1, d2, 'T', h1, h2, ':', i1, i2, ':', s1, s2,
      '.', f1, f2, f3, 'Z'] =>
    if ([y1, y2, y3, y4, m1, m2, d1, d2, h1, h2, i1, i2, s1, s2, f1, f2, f3].all Char.isDigit) then
      mkEpoch (digitsToInt [y1, y2, y3, y4]) (digitsToInt [m1, m2]) (digitsToInt [d1, d2])
        (digitsToInt [h1, h2]) (digitsToInt [i1, i2]) (digitsToInt [s1, s2])
        (digitsToInt [f1, f2, f3])
    else none
  | _ => none

/-- Model of `new Date(str).getTime()` on the ISO strings this app stores:
`some` epoch milliseconds for a valid UTC ISO-8601 string, `none` for NaN
(an unparseable string). -/
def isoParse (s : String) : Option Int := isoParseChars s.data

/-- Model of `Date.prototype.toISOString`. -/
def isoOf (ms : Int) : String :=
  let c := msToCivil ms
  padNum 4 c.year ++ "-" ++ padNum 2 c.month ++ "-" ++ padNum 2 c.day ++ "T" ++
    padNum 2 c.hour ++ ":" ++ padNum 2 c.minute ++ ":" ++ padNum 2 c.second ++ "." ++
    padNum 3 c.millis ++ "Z"

/-! ## Timestamp formatters

Native `formatDisplayTime` / `formatCSVTime` (records.tsx lines 67–122):
check for an absent or unparseable timestamp, shift by the host offset
plus the fixed +3 h, then read the local-time getters of the shifted
`Date`. `off` is the host's `getTimezoneOffset()` value in minutes.
-/

def monthsAbbrev : List String :=
  ["Jan", "Feb", "Mar", "Apr", "May", "Jun", "Jul", "Aug", "Sep", "Oct", "Nov", "Dec"]

/-- The `hours % 12; hours = hours ? hours : 12` 12-hour conversion from
the source. -/
def hour12 (h : Int) : Int :=
  if h % 12 = 0 then 12 else h % 12

/-- The `hours >= 12 ? 'PM' : 'AM'` selector from the source. -/
def ampmOf (h : Int) : String := if 12 ≤ h then "PM" else "AM"

/-- The template literal of `formatDisplayTime` applied to the shifted
civil time. -/
def displayRender (c : Civil) : String :=
  monthsAbbrev.getD (c.month - 1).toNat "undefined" ++ " " ++ toString c.day ++ ", " ++
    toString c.year ++ ", " ++ toString (hour12 c.hour) ++ ":" ++ padNum 2 c.minute ++ " " ++
    ampmOf c.hour ++ " EAT"

def formatDisplayTime (off : Int) (timestamp : String) : String :=
  if timestamp = "" then "Unknown date"
  else
    match isoParse timestamp with
    | none => "Invalid date"
    | some t => displayRender (localCivil off (t + off * 60000 + 10800000))

/-- The template literal of `formatCSVTime` applied to the shifted civil
time. -/
def csvRender (c : Civil) : String :=
  padNum 2 c.month ++ "/" ++ padNum 2 c.day ++ "/" ++ toString c.year ++ " " ++
    padNum 2 c.hour ++ ":" ++ padNum 2 c.minute ++ ":" ++ padNum 2 c.second ++ " EAT"

def formatCSVTime (off : Int) (timestamp : String) : String :=
  if timestamp = "" then "N/A"
  else
    match isoParse timestamp with
    | none => "N/A"
    | some t => csvRender (localCivil off (t + off * 60000 + 10800000))

/-! ### Web formatters (app.js `toEATTime` / `formatDisplayTime` /
`formatCSVTime`, lines 1452–1501)

These have no validity check after the `!timestamp` guard, so on an
unparseable string every numeric getter yields NaN, `months[NaN]` yields
`undefined`, and string interpolation renders them as `"NaN"` /
`"undefined"`.  A JavaScript number that may be NaN is modelled as
`Option Int` (`none` = NaN). -/

/-- Rendering of a possibly-NaN number by template-literal interpolation. -/
def jsNumToString : Option Int → String
  | none => "NaN"
  | some n => toString n

/-- `x >= k` on a possibly-NaN `x` (NaN comparisons are false). -/
def jsGeNum (x : Option Int) (k : Int) : Bool :=
  match x with
  | none => false
  | some v => k ≤ v

/-- The `x ? x : d` pattern on a possibly-NaN number: NaN and 0 are falsy. -/
def jsTruthyElse (x : Option Int) (d : Int) : Option Int :=
  match x with
  | none => some d
  | some v => if v = 0 then some d else some v

/-- `toEATTime` from app.js; `now` is the current instant, used only when
the timestamp argument is absent. -/
def webToEATTime (off now : Int) (ts : String) : Option Int :=
  let dateMs : Option Int := if ts = "" then some now else isoParse ts
  dateMs.map (fun t => t + off * 60000 + 10800000)

def webFormatDisplayTime (off now : Int) (ts : String) : String :=
  if ts = "" then "Unknown date"
  else
    let civ : Option Civil := (webToEATTime off now ts).map (fun e => localCivil off e)
    let month : String :=
      match civ.map (fun c => c.month - 1) with
      | none => "undefined"
      | some i => monthsAbbrev.getD i.toNat "undefined"
    let hours0 : Option Int := civ.map (fun c => c.hour)
    let hoursFinal := jsTruthyElse (hours0.map (fun h => h % 12)) 12
    month ++ " " ++ jsNumToString (civ.map (fun c => c.day)) ++ ", " ++
      jsNumToString (civ.map (fun c => c.year)) ++ ", " ++ jsNumToString hoursFinal ++ ":" ++
      padStartStr 2 '0' (jsNumToString (civ.map (fun c => c.minute))) ++ " " ++
      (if jsGeNum hours0 12 then "PM" else "AM") ++ " EAT"

def webFormatCSVTime (off now : Int) (ts : String) : String :=
  if ts = "" then "N/A"
  else
    let civ : Option Civil := (webToEATTime off now ts).map (fun e => localCivil off e)
    padStartStr 2 '0' (jsNumToString (civ.map (fun c => c.month - 1 + 1))) ++ "/" ++
      padStartStr 2 '0' (jsNumToString (civ.map (fun c => c.day))) ++ "/" ++
      jsNumToString (civ.map (fun c => c.year)) ++ " " ++
      padStartStr 2 '0' (jsNumToString (civ.map (fun c => c.hour))) ++ ":" ++
      padStartStr 2 '0' (jsNumToString (civ.map (fun c => c.minute))) ++ ":" ++
      padStartStr 2 '0' (jsNumToString (civ.map (fun c => c.second))) ++ " EAT"

/-! ## The record store and its operations -/

/-- The persisted record shape.  `timezoneOffset` is the optional
informational field (the web path stores `180`, the native path stores
nothing); no logic reads it. -/
structure QRRecord where
  qrcode : String
  name : String
  timestamp : String
  timezoneOffset : Option Int := none
deriving DecidableEq, Repr

inductive RegisterResult where
  | rejected
  | duplicate
  | registered (r : QRRecord)
deriving DecidableEq, Repr

/-- Scan-time duplicate pre-check (handleQRCodeScanned line 640):
`existingRecords.some(record => record.qrcode === data.trim())`. -/
def scanIsDuplicate (recs : List QRRecord) (data : String) : Bool :=
  recs.any (fun record => record.qrcode == jsTrim data)

/-- Registration-time duplicate check (handleRegister line 690):
`existingRecords.some(record => record.qrcode === qrValue)`. -/
def registerIsDuplicate (recs : List QRRecord) (qrValue : String) : Bool :=
  recs.any (fun record => record.qrcode == qrValue)

/-- Native `handleRegister` + `saveRecord` (records.tsx lines 656–730) as a
pure state transformer: `qrValue`/`personName` are the form fields, `now`
the current epoch instant, `off` the host timezone offset. -/
def handleRegister (off now : Int) (qrValue personName : String) (recs : List QRRecord) :
    RegisterResult × List QRRecord :=
  if jsTrim qrValue = "" then (.rejected, recs)
  else
    let finalName := if jsTrim personName = "" then "Unnamed" else jsTrim personName
    if registerIsDuplicate recs qrValue then (.duplicate, recs)
    else
      let utcTime := now + off * 60000
      let eatTime := utcTime + 10800000
      let newRecord : QRRecord := { qrcode := qrValue, name := finalName, timestamp := isoOf eatTime }
      (.registered newRecord, recs ++ [newRecord])

/-- Native `saveEdit` (records.tsx lines 155–175). -/
def saveEdit (editingRecord : Option QRRecord) (editName : String) (recs : List QRRecord) :
    List QRRecord :=
  match editingRecord with
  | none => recs
  | some er =>
    if jsTrim editName = "" then recs
    else
      recs.map (fun record =>
        if record.qrcode == er.qrcode then { record with name := jsTrim editName } else record)

/-- Native `deleteRecord` confirm handler (records.tsx line 135). -/
def deleteRecord (qrcode : String) (recs : List QRRecord) : List QRRecord :=
  recs.filter (fun record => record.qrcode != qrcode)

/-! ### Web (IndexedDB) store, keyed by `qrcode` -/

/-- `store.get(code)` on the keyed store. -/
def idbGet (recs : List QRRecord) (code : String) : Option QRRecord :=
  recs.find? (fun r => r.qrcode == code)

/-- `store.put(r)` on the keyed store: replace the record with the same
key, else append. -/
def idbPut (recs : List QRRecord) (r : QRRecord) : List QRRecord :=
  if recs.any (fun x => x.qrcode == r.qrcode) then
    recs.map (fun x => if x.qrcode == r.qrcode then r else x)
  else recs ++ [r]

/-- Web `handleFormSubmission` (app.js lines 1227–1280). -/
def handleFormSubmission (now : Int) (qrcodeRaw nameRaw : String) (recs : List QRRecord) :
    RegisterResult × List QRRecord :=
  let qrcode := jsTrim qrcodeRaw
  let name := if jsTrim nameRaw = "" then "Unnamed" else jsTrim nameRaw
  if qrcode = "" then (.rejected, recs)
  else
    match idbGet recs qrcode with
    | some _ => (.duplicate, recs)
    | none =>
      let newRecord : QRRecord :=
        { qrcode := qrcode, name := name, timestamp := isoOf now, timezoneOffset := some 180 }
      (.registered newRecord, idbPut recs newRecord)

/-- Web `editRecord` (app.js lines 1395–1424); `promptResult` models the
`prompt` return value (`none` = cancelled). -/
def webEditRecord (qrcode : String) (promptResult : Option String) (recs : List QRRecord) :
    List QRRecord :=
  match idbGet recs qrcode with
  | none => recs
  | some record =>
    match promptResult with
    | none => recs
    | some newName =>
      if jsTrim newName = "" then recs
      else idbPut recs { record with name := jsTrim newName }

/-! ### Listing (records.tsx `loadRecords`, lines 47–65)

`parsedRecords.sort((a, b) => new Date(b.timestamp).getTime() -
new Date(a.timestamp).getTime())`.  `Array.prototype.sort` is a stable
sort; a comparator result of NaN is treated as `+0` (ES SortCompare), so
the comparator model returns `0` when either timestamp is unparseable. -/

def sortCmp (a b : QRRecord) : Int :=
  match isoParse b.timestamp, isoParse a.timestamp with
  | some tb, some ta => tb - ta
  | _, _ => 0

def sortLE (a b : QRRecord) : Bool := sortCmp a b ≤ 0

def loadRecords (recs : List QRRecord) : List QRRecord := recs.mergeSort sortLE

/-- `new Date(ts).getTime()` on a record known to hold a valid timestamp. -/
def timeOf (r : QRRecord) : Int := (isoParse r.timestamp).getD 0

/-- The comparator restated on parsed times: `a` may come before `b`
exactly when `b`'s time is not larger.  On lists whose timestamps all
parse this coincides with `sortLE`. -/
def descLE (a b : QRRecord) : Bool := timeOf b ≤ timeOf a

/-! ### CSV building (`exportToCSV`, records.tsx lines 186–196) -/

/-- One escaped, quoted CSV field: `` `"${s.replace(/"/g, '""')}"` ``. -/
def csvField (s : String) : String := "\"" ++ jsEscQuotes s ++ "\""

/-- One data row of the CSV. -/
def csvRow (off : Int) (record : QRRecord) : String :=
  csvField record.name ++ "," ++ csvField record.qrcode ++ "," ++
    csvField (formatCSVTime off record.timestamp)

def csvHeader : String := "Name,QR Code,Registration Date (EAT)\n"

/-- `csvContent = csvHeader + records.map(row).join('\n')`. -/
def exportCSVContent (off : Int) (recs : List QRRecord) : String :=
  csvHeader ++ String.intercalate "\n" (recs.map (csvRow off))

/-! ## Operation sequences (for store-wide invariants) -/

inductive Op where
  | register (off now : Int) (qrValue personName : String)
  | edit (editingRecord : Option QRRecord) (newName : String)
  | delete (qrcode : String)

def applyOp (recs : List QRRecord) : Op → List QRRecord
  | .register off now q n => (handleRegister off now q n recs).2
  | .edit er n => saveEdit er n recs
  | .delete c => deleteRecord c recs

/-- Run a sequence of operations from the empty store. -/
def runOps (ops : List Op) : List QRRecord := ops.foldl applyOp []

def codes (recs : List QRRecord) : List String := recs.map (fun r => r.qrcode)

/-! ## Helper lemmas -/

theorem jsTrim_idem (s : String) : jsTrim (jsTrim s) = jsTrim s := by
  unfold jsTrim
  congr 1
  show (((s.data.rdropWhile jsWhitespace).dropWhile jsWhitespace).rdropWhile
      jsWhitespace).dropWhile jsWhitespace =
    (s.data.rdropWhile jsWhitespace).dropWhile jsWhitespace
  have h1 : ((s.data.rdropWhile jsWhitespace).dropWhile jsWhitespace).rdropWhile jsWhitespace =
      (s.data.rdropWhile jsWhitespace).dropWhile jsWhitespace := by
    rw [List.rdropWhile_eq_self_iff]
    intro hne
    have hsuf : (s.data.rdropWhile jsWhitespace).dropWhile jsWhitespace <:+
        s.data.rdropWhile jsWhitespace := List.dropWhile_suffix _
    rw [hsuf.getLast hne]
    exact List.rdropWhile_last_not _ _ (hsuf.ne_nil hne)
  rw [h1, List.dropWhile_idempotent]

theorem intercalate_go_append (s acc₁ acc₂ : String) (l : List String) :
    String.intercalate.go (acc₁ ++ acc₂) s l = acc₁ ++ String.intercalate.go acc₂ s l := by
  induction l generalizing acc₂ with
  | nil => simp [String.intercalate.go]
  | cons a t ih =>
    rw [String.intercalate.go, String.intercalate.go,
      show acc₁ ++ acc₂ ++ s ++ a = acc₁ ++ (acc₂ ++ s ++ a) by
        simp [String.append_assoc]]
    exact ih (acc₂ ++ s ++ a)

theorem intercalate_cons₂ (s a b : String) (t : List String) :
    String.intercalate s (a :: b :: t) = a ++ s ++ String.intercalate s (b :: t) := by
  show String.intercalate.go a s (b :: t) = _
  rw [String.intercalate.go,
    show a ++ s ++ b = (a ++ s) ++ b from rfl, intercalate_go_append]
  rfl

theorem localCivil_shift (off t : Int) :
    localCivil off (t + off * 60000 + 10800000) = msToCivil (t + 10800000) := by
  unfold localCivil
  congr 1
  ring

/-- On a parseable nonempty timestamp the CSV formatter renders the instant
shifted by exactly +3 h, independently of the host offset. -/
theorem formatCSVTime_valid (off t : Int) (ts : String) (h1 : ts ≠ "")
    (h2 : isoParse ts = some t) :
    formatCSVTime off ts = csvRender (msToCivil (t + 10800000)) := by
  simp only [formatCSVTime, if_neg h1, h2, localCivil_shift]

/-- On a parseable nonempty timestamp the display formatter renders the
instant shifted by exactly +3 h, independently of the host offset. -/
theorem formatDisplayTime_valid (off t : Int) (ts : String) (h1 : ts ≠ "")
    (h2 : isoParse ts = some t) :
    formatDisplayTime off ts = displayRender (msToCivil (t + 10800000)) := by
  simp only [formatDisplayTime, if_neg h1, h2, localCivil_shift]

theorem codes_append (recs : List QRRecord) (r : QRRecord) :
    codes (recs ++ [r]) = codes recs ++ [r.qrcode] := by
  simp [codes]

theorem codes_saveEdit (er : Option QRRecord) (en : String) (recs : List QRRecord) :
    codes (saveEdit er en recs) = codes recs := by
  cases er with
  | none => rfl
  | some e =>
    simp only [saveEdit]
    split
    · rfl
    · simp only [codes, List.map_map]
      congr 1
      funext r
      simp only [Function.comp]
      split <;> rfl

theorem mem_codes_iff (recs : List QRRecord) (c : String) :
    c ∈ codes recs ↔ registerIsDuplicate recs c = true := by
  simp [codes, registerIsDuplicate, List.any_eq_true, beq_iff_eq]

theorem nodup_codes_applyOp (recs : List QRRecord) (op : Op) (h : (codes recs).Nodup) :
    (codes (applyOp recs op)).Nodup := by
  cases op with
  | register off now q n =>
    show (codes (handleRegister off now q n recs).2).Nodup
    simp only [handleRegister]
    split
    · exact h
    · split
      · exact h
      · rename_i hdup
        dsimp only
        rw [codes_append, List.nodup_append]
        refine ⟨h, List.nodup_singleton _, ?_⟩
        intro a ha hb
        rw [List.mem_singleton] at hb
        rw [hb] at ha
        exact hdup ((mem_codes_iff recs q).mp ha)
  | edit er n =>
    show (codes (saveEdit er n recs)).Nodup
    rw [codes_saveEdit]
    exact h
  | delete c =>
    exact List.Nodup.sublist ((List.filter_sublist _).map _) h

theorem nodup_codes_foldl (l : List Op) (recs : List QRRecord) (h : (codes recs).Nodup) :
    (codes (l.foldl applyOp recs)).Nodup := by
  induction l generalizing recs with
  | nil => exact h
  | cons op t ih => exact ih _ (nodup_codes_applyOp recs op h)

theorem names_applyOp (recs : List QRRecord) (op : Op) (h : ∀ r ∈ recs, r.name ≠ "") :
    ∀ r ∈ applyOp recs op, r.name ≠ "" := by
  cases op with
  | register off now q n =>
    show ∀ r ∈ (handleRegister off now q n recs).2, r.name ≠ ""
    simp only [handleRegister]
    split
    · exact h
    · split
      · exact h
      · intro r hr
        dsimp only at hr
        rw [List.mem_append] at hr
        rcases hr with hr | hr
        · exact h r hr
        · rw [List.mem_singleton] at hr
          subst hr
          show (if jsTrim n = "" then "Unnamed" else jsTrim n) ≠ ""
          split
          · decide
          · assumption
  | edit er n =>
    show ∀ r ∈ saveEdit er n recs, r.name ≠ ""
    cases er with
    | none => exact h
    | some e =>
      simp only [saveEdit]
      split
      · exact h
      · intro r hr
        rw [List.mem_map] at hr
        obtain ⟨x, hx, rfl⟩ := hr
        split
        · exact ‹¬ jsTrim n = ""›
        · exact h x hx
  | delete c =>
    intro r hr
    exact h r (List.mem_of_mem_filter hr)

theorem names_foldl (l : List Op) (recs : List QRRecord) (h : ∀ r ∈ recs, r.name ≠ "") :
    ∀ r ∈ l.foldl applyOp recs, r.name ≠ "" := by
  induction l generalizing recs with
  | nil => exact h
  | cons op t ih => exact ih _ (names_applyOp recs op h)

/-! ## Claim theorems -/

/-- C1: registering a fresh trimmed code appends exactly one record with
that code; registering a code already stored yields `duplicate` with no
store mutation; every operation preserves uniqueness of codes, so a store
reached from empty by any operation sequence never holds two records with
the same code; and register/edit operations (and deletions of other codes)
never remove a code, so without an intervening deletion of it the second
registration meets the duplicate branch. -/
theorem registered_codes_unique :
    (∀ ops : List Op, (codes (runOps ops)).Nodup)
  ∧ (∀ (off now : Int) (q pn : String) (recs : List QRRecord),
      jsTrim q ≠ "" → q ∉ codes recs →
      ∃ r, handleRegister off now q pn recs = (.registered r, recs ++ [r]) ∧ r.qrcode = q)
  ∧ (∀ (off now : Int) (q pn : String) (recs : List QRRecord),
      jsTrim q ≠ "" → q ∈ codes recs →
      handleRegister off now q pn recs = (.duplicate, recs))
  ∧ (∀ (recs : List QRRecord) (c : String) (op : Op),
      (∀ s, op = Op.delete s → s ≠ c) → c ∈ codes recs → c ∈ codes (applyOp recs op)) := by
  refine ⟨?_, ?_, ?_, ?_⟩
  · intro ops
    exact nodup_codes_foldl ops [] (by simp [codes])
  · intro off now q pn recs h1 h2
    have hdup : ¬ registerIsDuplicate recs q = true :=
      fun hc => h2 ((mem_codes_iff recs q).mpr hc)
    exact ⟨{ qrcode := q, name := if jsTrim pn = "" then "Unnamed" else jsTrim pn,
             timestamp := isoOf (now + off * 60000 + 10800000) },
      by simp only [handleRegister, if_neg h1, if_neg hdup], rfl⟩
  · intro off now q pn recs h1 h2
    have hdup : registerIsDuplicate recs q = true := (mem_codes_iff recs q).mp h2
    simp only [handleRegister, if_neg h1, if_pos hdup]
  · intro recs c op hop hc
    cases op with
    | register off now q n =>
      show c ∈ codes (handleRegister off now q n recs).2
      simp only [handleRegister]
      split
      · exact hc
      · split
        · exact hc
        · dsimp only
          rw [codes_append]
          exact List.mem_append_left _ hc
    | edit er n =>
      show c ∈ codes (saveEdit er n recs)
      rw [codes_saveEdit]
      exact hc
    | delete s =>
      have hs : s ≠ c := hop s rfl
      show c ∈ codes (deleteRecord s recs)
      rw [codes, List.mem_map]
      rw [codes, List.mem_map] at hc
      obtain ⟨r, hr, hrc⟩ := hc
      refine ⟨r, ?_, hrc⟩
      rw [deleteRecord, List.mem_filter]
      refine ⟨hr, ?_⟩
      rw [bne_iff_ne, hrc]
      exact fun he => hs he.symm

theorem registered_codes_unique_witness :
    (∃ r, handleRegister 0 1704067200000 "C1" "Bob" [] = (.registered r, [] ++ [r]) ∧
      r.qrcode = "C1")
  ∧ handleRegister 0 0 "C1" "Bob" [{ qrcode := "C1", name := "Bob", timestamp := "x" }] =
      (.duplicate, [{ qrcode := "C1", name := "Bob", timestamp := "x" }]) := by
  constructor
  · exact registered_codes_unique.2.1 0 1704067200000 "C1" "Bob" [] (by decide) (by decide)
  · exact registered_codes_unique.2.2.1 0 0 "C1" "Bob" _ (by decide) (by decide)

/-- C2 (failing-input evaluation): on a UTC host (offset 0) a native
registration at the instant 2024-01-01T00:00:00Z stores the shifted
timestamp `2024-01-01T03:00:00.000Z`, not the ISO serialization of the
registration instant itself; the web path stores the unshifted instant. -/
theorem register_timestamp_shifted :
    handleRegister 0 1704067200000 "CODE1" "Alice" [] =
      (.registered ⟨"CODE1", "Alice", "2024-01-01T03:00:00.000Z", none⟩,
        [⟨"CODE1", "Alice", "2024-01-01T03:00:00.000Z", none⟩])
  ∧ isoOf 1704067200000 = "2024-01-01T00:00:00.000Z"
  ∧ ("2024-01-01T03:00:00.000Z" : String) ≠ "2024-01-01T00:00:00.000Z"
  ∧ handleFormSubmission 1704067200000 "CODE1" "Alice" [] =
      (.registered ⟨"CODE1", "Alice", "2024-01-01T00:00:00.000Z", some 180⟩,
        [⟨"CODE1", "Alice", "2024-01-01T00:00:00.000Z", some 180⟩]) := by
  exact ⟨by decide, by decide, by decide, by decide⟩

/-- C3: both formatters render 2024-01-01T00:00:00Z as the fixed UTC+3
wall-clock time, independently of the host timezone offset. -/
theorem eat_formatting (off : Int) :
    formatCSVTime off "2024-01-01T00:00:00Z" = "01/01/2024 03:00:00 EAT"
  ∧ formatDisplayTime off "2024-01-01T00:00:00Z" = "Jan 1, 2024, 3:00 AM EAT" := by
  constructor
  · rw [formatCSVTime_valid off 1704067200000 _ (by decide) (by decide)]
    decide
  · rw [formatDisplayTime_valid off 1704067200000 _ (by decide) (by decide)]
    decide

/-- C4 counterexample: the web formatters, which the claim also covers,
do not return "Invalid date"/"N/A" on an unparseable non-empty input; they
render NaN placeholders instead. -/
theorem web_formatter_invalid_counterexample :
    webFormatDisplayTime 0 0 "not-a-date" = "undefined NaN, NaN, 12:NaN AM EAT"
  ∧ webFormatDisplayTime 0 0 "not-a-date" ≠ "Invalid date"
  ∧ webFormatCSVTime 0 0 "not-a-date" = "NaN/NaN/NaN NaN:NaN:NaN EAT"
  ∧ webFormatCSVTime 0 0 "not-a-date" ≠ "N/A"
  ∧ isoParse "not-a-date" = none := by
  exact ⟨by decide, by decide, by decide, by decide, by decide⟩

/-- C4 (amended): absent input yields "Unknown date"/"N/A" in all four
formatters; unparseable non-empty input yields "Invalid date"/"N/A" in the
native formatters and the fixed NaN placeholder strings in the web
formatters; all formatters are total functions. -/
theorem formatter_error_handling (off now : Int) (ts : String) :
    (ts = "" → formatDisplayTime off ts = "Unknown date" ∧ formatCSVTime off ts = "N/A" ∧
      webFormatDisplayTime off now ts = "Unknown date" ∧ webFormatCSVTime off now ts = "N/A")
  ∧ (ts ≠ "" → isoParse ts = none →
      formatDisplayTime off ts = "Invalid date" ∧ formatCSVTime off ts = "N/A" ∧
      webFormatDisplayTime off now ts = "undefined NaN, NaN, 12:NaN AM EAT" ∧
      webFormatCSVTime off now ts = "NaN/NaN/NaN NaN:NaN:NaN EAT") := by
  constructor
  · intro h
    subst h
    exact ⟨rfl, rfl, rfl, rfl⟩
  · intro h1 h2
    have hwe : webToEATTime off now ts = none := by
      simp [webToEATTime, if_neg h1, h2]
    refine ⟨?_, ?_, ?_, ?_⟩
    · simp only [formatDisplayTime, if_neg h1, h2]
    · simp only [formatCSVTime, if_neg h1, h2]
    · simp only [webFormatDisplayTime, if_neg h1, hwe, Option.map_none']
      decide
    · simp only [webFormatCSVTime, if_neg h1, hwe, Option.map_none']
      decide

theorem formatter_error_handling_witness :
    (formatDisplayTime 0 "" = "Unknown date" ∧ formatCSVTime 0 "" = "N/A" ∧
      webFormatDisplayTime 0 0 "" = "Unknown date" ∧ webFormatCSVTime 0 0 "" = "N/A")
  ∧ (formatDisplayTime 0 "xyz" = "Invalid date" ∧ formatCSVTime 0 "xyz" = "N/A" ∧
      webFormatDisplayTime 0 0 "xyz" = "undefined NaN, NaN, 12:NaN AM EAT" ∧
      webFormatCSVTime 0 0 "xyz" = "NaN/NaN/NaN NaN:NaN:NaN EAT") := by
  constructor
  · exact (formatter_error_handling 0 0 "").1 rfl
  · exact (formatter_error_handling 0 0 "xyz").2 (by decide) (by decide)

/-- C6: starting from the empty store, no operation sequence ever persists
a record with an empty name; registering with a blank name stores the
sentinel "Unnamed"; registering with "  Alice  " stores the trimmed
"Alice"; the web registration likewise stores the sentinel or the trimmed
name, never an empty string. -/
theorem names_never_blank :
    (∀ ops : List Op, ∀ r ∈ runOps ops, r.name ≠ "")
  ∧ (∀ (off now : Int) (q pn : String) (recs : List QRRecord),
      jsTrim q ≠ "" → q ∉ codes recs → jsTrim pn = "" →
      ∃ r, handleRegister off now q pn recs = (.registered r, recs ++ [r]) ∧ r.name = "Unnamed")
  ∧ (∀ (off now : Int) (q : String) (recs : List QRRecord),
      jsTrim q ≠ "" → q ∉ codes recs →
      ∃ r, handleRegister off now q "  Alice  " recs = (.registered r, recs ++ [r]) ∧
        r.name = "Alice")
  ∧ (∀ (now : Int) (qr nr : String) (recs : List QRRecord),
      jsTrim qr ≠ "" → idbGet recs (jsTrim qr) = none →
      ∃ r, handleFormSubmission now qr nr recs = (.registered r, idbPut recs r) ∧
        r.name = (if jsTrim nr = "" then "Unnamed" else jsTrim nr) ∧ r.name ≠ "") := by
  refine ⟨?_, ?_, ?_, ?_⟩
  · intro ops
    exact names_foldl ops [] (by simp)
  · intro off now q pn recs h1 h2 h3
    have hdup : ¬ registerIsDuplicate recs q = true :=
      fun hc => h2 ((mem_codes_iff recs q).mpr hc)
    exact ⟨{ qrcode := q, name := "Unnamed",
             timestamp := isoOf (now + off * 60000 + 10800000) },
      by simp only [handleRegister, if_neg h1, if_neg hdup, h3, if_pos], rfl⟩
  · intro off now q recs h1 h2
    have hdup : ¬ registerIsDuplicate recs q = true :=
      fun hc => h2 ((mem_codes_iff recs q).mpr hc)
    have htr : jsTrim "  Alice  " = "Alice" := by decide
    exact ⟨{ qrcode := q, name := "Alice",
             timestamp := isoOf (now + off * 60000 + 10800000) },
      by simp only [handleRegister, if_neg h1, if_neg hdup, htr]
         simp, rfl⟩
  · intro now qr nr recs h1 h2
    refine ⟨{ qrcode := jsTrim qr, name := if jsTrim nr = "" then "Unnamed" else jsTrim nr,
              timestamp := isoOf now, timezoneOffset := some 180 },
      ?_, rfl, ?_⟩
    · simp only [handleFormSubmission, if_neg h1, h2]
    · split
      · exact (by decide : ("Unnamed" : String) ≠ "")
      · exact ‹¬ jsTrim nr = ""›

theorem names_never_blank_witness :
    (∃ r, handleRegister 0 0 "C2" "   " [] = (.registered r, [] ++ [r]) ∧ r.name = "Unnamed")
  ∧ (∃ r, handleRegister 0 0 "C3" "  Alice  " [] = (.registered r, [] ++ [r]) ∧
      r.name = "Alice")
  ∧ (∃ r, handleFormSubmission 0 "C4" "" [] = (.registered r, idbPut [] r) ∧
      r.name = (if jsTrim "" = "" then "Unnamed" else jsTrim "") ∧ r.name ≠ "") := by
  refine ⟨?_, ?_, ?_⟩
  · exact names_never_blank.2.1 0 0 "C2" "   " [] (by decide) (by decide) (by decide)
  · exact names_never_blank.2.2.1 0 0 "C3" [] (by decide) (by decide)
  · exact names_never_blank.2.2.2 0 "C4" "" [] (by decide) (by decide)

/-- C9: the scan-time duplicate pre-check and the registration-time
duplicate check are the same trim-and-compare predicate, and on a scanned
input (whose trimmed value the UI stores into `qrValue`) registration
reports `duplicate` exactly when the pre-check warned. -/
theorem duplicate_checks_agree :
    (∀ (data : String) (recs : List QRRecord),
      scanIsDuplicate recs data = registerIsDuplicate recs (jsTrim data))
  ∧ (∀ (off now : Int) (pn data : String) (recs : List QRRecord), jsTrim data ≠ "" →
      ((handleRegister off now (jsTrim data) pn recs).1 = .duplicate ↔
        scanIsDuplicate recs data = true)) := by
  constructor
  · intro data recs
    rfl
  · intro off now pn data recs h
    have hg : jsTrim (jsTrim data) ≠ "" := by
      rw [jsTrim_idem]
      exact h
    have hsr : scanIsDuplicate recs data = registerIsDuplicate recs (jsTrim data) := rfl
    rw [hsr]
    simp only [handleRegister, if_neg hg]
    cases hbool : registerIsDuplicate recs (jsTrim data) with
    | false => simp
    | true => simp

theorem duplicate_checks_agree_witness :
    (handleRegister 0 0 (jsTrim " abc ") "" []).1 = RegisterResult.duplicate ↔
      scanIsDuplicate [] " abc " = true :=
  duplicate_checks_agree.2 0 0 "" " abc " [] (by decide)

/-- C10: the 12-hour value rendered by the display formatter always lies in
1..12 — a wall-clock hour of 0 renders as 12 AM, hour 12 as 12 PM, and
hours 13–23 as (hour − 12) PM — for the civil hour of any instant. -/
theorem display_hour_in_range (ms : Int) :
    (1 ≤ hour12 ((msToCivil ms).hour) ∧ hour12 ((msToCivil ms).hour) ≤ 12)
  ∧ ((msToCivil ms).hour = 0 →
      hour12 ((msToCivil ms).hour) = 12 ∧ ampmOf ((msToCivil ms).hour) = "AM")
  ∧ ((msToCivil ms).hour = 12 →
      hour12 ((msToCivil ms).hour) = 12 ∧ ampmOf ((msToCivil ms).hour) = "PM")
  ∧ (13 ≤ (msToCivil ms).hour →
      hour12 ((msToCivil ms).hour) = (msToCivil ms).hour - 12 ∧
        ampmOf ((msToCivil ms).hour) = "PM") := by
  have hb : 0 ≤ (msToCivil ms).hour ∧ (msToCivil ms).hour < 24 := by
    show 0 ≤ ms % 86400000 / 3600000 ∧ ms % 86400000 / 3600000 < 24
    omega
  set h := (msToCivil ms).hour with hh
  obtain ⟨hb0, hb1⟩ := hb
  refine ⟨⟨?_, ?_⟩, ?_, ?_, ?_⟩
  · simp only [hour12]
    split <;> omega
  · simp only [hour12]
    split <;> omega
  · intro h0
    rw [h0]
    exact ⟨by decide, by decide⟩
  · intro h0
    rw [h0]
    exact ⟨by decide, by decide⟩
  · intro h13
    constructor
    · simp only [hour12]
      split <;> omega
    · simp only [ampmOf]
      rw [if_pos (by omega)]

theorem display_hour_in_range_witness :
    hour12 ((msToCivil 0).hour) = 12 ∧ ampmOf ((msToCivil 0).hour) = "AM" :=
  (display_hour_in_range 0).2.1 (by decide)

/-- C5: a blank-after-trim edit is rejected and leaves the stored
collection unchanged, native and web alike; a non-blank edit keeps length
and order, replaces only the name field of records carrying the edited
code, and leaves every other record (in particular every timestamp)
untouched. -/
theorem edit_name_frame :
    (∀ (er : Option QRRecord) (en : String) (recs : List QRRecord),
      jsTrim en = "" → saveEdit er en recs = recs)
  ∧ (∀ (er : QRRecord) (en : String) (recs : List QRRecord), jsTrim en ≠ "" →
      (saveEdit (some er) en recs).length = recs.length
      ∧ ∀ (i : Nat) (r r' : QRRecord), recs[i]? = some r →
          (saveEdit (some er) en recs)[i]? = some r' →
          r'.qrcode = r.qrcode ∧ r'.timestamp = r.timestamp ∧
          r'.timezoneOffset = r.timezoneOffset ∧
          (r.qrcode = er.qrcode → r'.name = jsTrim en) ∧
          (r.qrcode ≠ er.qrcode → r' = r))
  ∧ (∀ (code : String) (pr : Option String) (recs : List QRRecord),
      idbGet recs code = none → webEditRecord code pr recs = recs)
  ∧ (∀ (code : String) (recs : List QRRecord), webEditRecord code none recs = recs)
  ∧ (∀ (code s : String) (recs : List QRRecord),
      jsTrim s = "" → webEditRecord code (some s) recs = recs)
  ∧ (∀ (code s : String) (recs : List QRRecord) (rec : QRRecord), jsTrim s ≠ "" →
      idbGet recs code = some rec → (codes recs).Nodup →
      (webEditRecord code (some s) recs).length = recs.length
      ∧ ∀ (i : Nat) (r r' : QRRecord), recs[i]? = some r →
          (webEditRecord code (some s) recs)[i]? = some r' →
          r'.qrcode = r.qrcode ∧ r'.timestamp = r.timestamp ∧
          (r.qrcode = code → r'.name = jsTrim s) ∧
          (r.qrcode ≠ code → r' = r)) := by
  refine ⟨?_, ?_, ?_, ?_, ?_, ?_⟩
  · intro er en recs h
    cases er with
    | none => rfl
    | some e => simp only [saveEdit, if_pos h]
  · intro er en recs h
    constructor
    · simp only [saveEdit, if_neg h, List.length_map]
    · intro i r r' hr hr'
      simp only [saveEdit, if_neg h, List.getElem?_map, hr, Option.map_some'] at hr'
      rw [Option.some_inj] at hr'
      by_cases hq : r.qrcode = er.qrcode
      · rw [if_pos (by rw [beq_iff_eq]; exact hq)] at hr'
        subst hr'
        exact ⟨rfl, rfl, rfl, fun _ => rfl, fun hc => absurd hq hc⟩
      · rw [if_neg (by rw [beq_iff_eq]; exact hq)] at hr'
        subst hr'
        exact ⟨rfl, rfl, rfl, fun hc => absurd hc hq, fun _ => rfl⟩
  · intro code pr recs h
    simp only [webEditRecord, h]
  · intro code recs
    cases hG : idbGet recs code with
    | none => simp only [webEditRecord, hG]
    | some rec => simp only [webEditRecord, hG]
  · intro code s recs h
    cases hG : idbGet recs code with
    | none => simp only [webEditRecord, hG]
    | some rec => simp only [webEditRecord, hG, if_pos h]
  · intro code s recs rec h hG hnd
    have hrecmem : rec ∈ recs := List.mem_of_find?_eq_some hG
    have hreccode : rec.qrcode = code := by
      have := List.find?_some hG
      rwa [beq_iff_eq] at this
    have hany : recs.any (fun x => x.qrcode == rec.qrcode) = true := by
      rw [List.any_eq_true]
      exact ⟨rec, hrecmem, by rw [beq_iff_eq]⟩
    have hput : webEditRecord code (some s) recs =
        recs.map (fun x => if x.qrcode == rec.qrcode then
          { rec with name := jsTrim s } else x) := by
      simp only [webEditRecord, hG, if_neg h, idbPut]
      rw [if_pos hany]
    constructor
    · rw [hput, List.length_map]
    · intro i r r' hr hr'
      rw [hput] at hr'
      simp only [List.getElem?_map, hr, Option.map_some'] at hr'
      rw [Option.some_inj] at hr'
      by_cases hq : r.qrcode = code
      · have hrrec : r = rec :=
          List.inj_on_of_nodup_map hnd (List.getElem?_mem hr) hrecmem
            (by rw [hq, hreccode])
        rw [if_pos (by rw [beq_iff_eq, hq, hreccode])] at hr'
        subst hr'
        refine ⟨?_, ?_, fun _ => rfl, fun hc => absurd hq hc⟩
        · show rec.qrcode = r.qrcode
          rw [hrrec]
        · show rec.timestamp = r.timestamp
          rw [hrrec]
      · rw [if_neg (by rw [beq_iff_eq, hreccode]; exact hq)] at hr'
        subst hr'
        exact ⟨rfl, rfl, fun hc => absurd hc hq, fun _ => rfl⟩

theorem edit_name_frame_witness :
    (saveEdit (some ⟨"a", "x", "t", none⟩) " New " [⟨"a", "x", "t", none⟩]).length =
      ([⟨"a", "x", "t", none⟩] : List QRRecord).length
  ∧ saveEdit (some ⟨"a", "x", "t", none⟩) "  " [⟨"a", "x", "t", none⟩] =
      [⟨"a", "x", "t", none⟩] := by
  constructor
  · exact (edit_name_frame.2.1 ⟨"a", "x", "t", none⟩ " New " [⟨"a", "x", "t", none⟩]
      (by decide)).1
  · exact edit_name_frame.1 (some ⟨"a", "x", "t", none⟩) "  " [⟨"a", "x", "t", none⟩]
      (by decide)

theorem formatCSVTime_concrete (off : Int) :
    formatCSVTime off "2024-01-01T00:00:00Z" = "01/01/2024 03:00:00 EAT" := by
  rw [formatCSVTime_valid off 1704067200000 _ (by decide) (by decide)]
  decide

theorem mem_escFold (l : List Char) (c : Char)
    (h : c ∈ l.foldr (fun c acc => if c = '"' then '"' :: '"' :: acc else c :: acc) []) :
    c = '"' ∨ c ∈ l := by
  induction l with
  | nil => cases h
  | cons a t ih =>
    rw [List.foldr_cons] at h
    by_cases ha : a = '"'
    · rw [if_pos ha] at h
      rcases List.mem_cons.mp h with h | h
      · exact Or.inl h
      · rcases List.mem_cons.mp h with h | h
        · exact Or.inl h
        · rcases ih h with h | h
          · exact Or.inl h
          · exact Or.inr (List.mem_cons_of_mem a h)
    · rw [if_neg ha] at h
      rcases List.mem_cons.mp h with h | h
      · exact Or.inr (h ▸ List.mem_cons_self a t)
      · rcases ih h with h | h
        · exact Or.inl h
        · exact Or.inr (List.mem_cons_of_mem a h)

/-- C7: the CSV builder emits the header line followed by one data row per
record, in order, joined by newlines; a field with no newline stays a
single line after escaping; and on the record {code: A"B, name: Jo,e} the
output is exactly the header plus one data line with the comma and the
quote correctly quoted/doubled and a date field ending in "EAT". -/
theorem csv_structure :
    (∀ (off : Int) (recs : List QRRecord), recs ≠ [] →
      exportCSVContent off recs =
        String.intercalate "\n"
          ("Name,QR Code,Registration Date (EAT)" :: recs.map (csvRow off)))
  ∧ (∀ (off : Int) (recs : List QRRecord), (recs.map (csvRow off)).length = recs.length)
  ∧ (∀ s : String, '\n' ∉ s.data → '\n' ∉ (csvField s).data)
  ∧ (∀ off : Int, exportCSVContent off [⟨"A\"B", "Jo,e", "2024-01-01T00:00:00Z", none⟩] =
      "Name,QR Code,Registration Date (EAT)\n\"Jo,e\",\"A\"\"B\",\"01/01/2024 03:00:00 EAT\"")
  ∧ List.isSuffixOf "EAT".data "01/01/2024 03:00:00 EAT".data = true := by
  refine ⟨?_, ?_, ?_, ?_, by decide⟩
  · intro off recs hne
    cases recs with
    | nil => exact absurd rfl hne
    | cons a t =>
      rw [show (a :: t).map (csvRow off) = csvRow off a :: t.map (csvRow off) from rfl,
        intercalate_cons₂]
      rfl
  · intro off recs
    exact List.length_map recs (csvRow off)
  · intro s hs hmem
    rw [csvField, String.data_append, String.data_append] at hmem
    rcases List.mem_append.mp hmem with h | h
    · rcases List.mem_append.mp h with h | h
      · exact absurd (List.mem_singleton.mp h) (by decide)
      · rcases mem_escFold s.data '\n' h with h | h
        · exact absurd h (by decide)
        · exact hs h
    · exact absurd (List.mem_singleton.mp h) (by decide)
  · intro off
    show csvHeader ++ String.intercalate "\n" [csvRow off ⟨"A\"B", "Jo,e",
      "2024-01-01T00:00:00Z", none⟩] = _
    rw [show String.intercalate "\n" [csvRow off ⟨"A\"B", "Jo,e",
      "2024-01-01T00:00:00Z", none⟩] = csvRow off ⟨"A\"B", "Jo,e",
      "2024-01-01T00:00:00Z", none⟩ from rfl]
    rw [show csvRow off ⟨"A\"B", "Jo,e", "2024-01-01T00:00:00Z", none⟩ =
      csvField "Jo,e" ++ "," ++ csvField "A\"B" ++ "," ++
        csvField (formatCSVTime off "2024-01-01T00:00:00Z") from rfl]
    rw [formatCSVTime_concrete]
    decide

theorem csv_structure_witness :
    exportCSVContent 0 [⟨"c", "n", "2024-01-01T00:00:00Z", none⟩] =
      String.intercalate "\n" ("Name,QR Code,Registration Date (EAT)" ::
        ([⟨"c", "n", "2024-01-01T00:00:00Z", none⟩] : List QRRecord).map (csvRow 0))
  ∧ '\n' ∉ (csvField "a\"b").data := by
  constructor
  · exact csv_structure.1 0 [⟨"c", "n", "2024-01-01T00:00:00Z", none⟩] (by simp)
  · exact csv_structure.2.2.1 "a\"b" (by decide)

theorem descLE_trans : ∀ a b c : QRRecord, descLE a b → descLE b c → descLE a c := by
  intro a b c
  simp only [descLE, decide_eq_true_eq]
  omega

theorem descLE_total : ∀ a b : QRRecord, descLE a b || descLE b a := by
  intro a b
  simp only [descLE, Bool.or_eq_true, decide_eq_true_eq]
  omega

/-- On a list whose timestamps all parse, the source comparator agrees
with the parsed-time comparator, so the two merge sorts coincide. -/
theorem loadRecords_eq_mergeSort_descLE (recs : List QRRecord)
    (h : ∀ r ∈ recs, (isoParse r.timestamp).isSome = true) :
    loadRecords recs = recs.mergeSort descLE := by
  have hcongr : ∀ a ∈ recs, ∀ b ∈ recs, sortLE a b = descLE (id a) (id b) := by
    intro a ha b hb
    obtain ⟨ta, hta⟩ := Option.isSome_iff_exists.mp (h a ha)
    obtain ⟨tb, htb⟩ := Option.isSome_iff_exists.mp (h b hb)
    simp only [sortLE, sortCmp, descLE, timeOf, hta, htb, Option.getD_some, id]
    simp only [decide_eq_decide]
    omega
  have hmap := List.map_mergeSort hcongr
  rw [List.map_id, List.map_id] at hmap
  exact hmap

/-- C8: listing sorts the stored records newest-first: the result is a
permutation of the store, pairwise ordered by descending parsed time, and
records with tied timestamps keep their relative input order (stability).
-/
theorem list_newest_first (recs : List QRRecord)
    (h : ∀ r ∈ recs, (isoParse r.timestamp).isSome = true) :
    List.Perm (loadRecords recs) recs
  ∧ (loadRecords recs).Pairwise (fun a b => timeOf b ≤ timeOf a)
  ∧ (∀ a b : QRRecord, timeOf a = timeOf b → List.Sublist [a, b] recs →
      List.Sublist [a, b] (loadRecords recs)) := by
  have he := loadRecords_eq_mergeSort_descLE recs h
  refine ⟨?_, ?_, ?_⟩
  · exact List.mergeSort_perm recs sortLE
  · rw [he]
    have hp : (recs.mergeSort descLE).Pairwise (fun a b => descLE a b = true) :=
      List.sorted_mergeSort descLE_trans descLE_total recs
    exact hp.imp (fun hab => by
      rw [show descLE _ _ = decide (timeOf _ ≤ timeOf _) from rfl, decide_eq_true_eq] at hab
      exact hab)
  · intro a b hab hsub
    rw [he]
    refine List.pair_sublist_mergeSort descLE_trans descLE_total ?_ hsub
    simp only [descLE, decide_eq_true_eq]
    omega

theorem list_newest_first_witness :
    List.Perm (loadRecords [⟨"a", "n", "2024-01-01T00:00:00Z", none⟩,
        ⟨"b", "n", "2024-06-01T00:00:00Z", none⟩])
      [⟨"a", "n", "2024-01-01T00:00:00Z", none⟩, ⟨"b", "n", "2024-06-01T00:00:00Z", none⟩] :=
  (list_newest_first _ (by decide)).1

end SaharaQr
